import Mathlib

/-!
Verification of the S3GlobReaderDataConnector
(great_expectations/execution_environment/data_connector/s3_data_connector.py).

The Python source is shallowly embedded below.  Python dicts of string
options are modelled as association lists with Python `dict.update`
semantics; the object store (`boto3` `list_objects_v2`) and the regular
expression engine (`re.match`) are external libraries and are modelled as
function parameters (`store`, `reMatchM`); the current wall-clock
timestamp string is a parameter `now`.  Mutation of `self._reader_options`
and of the per-asset iterator dictionaries is made explicit by state
passing: functions return the updated connector / iterator state.
-/

namespace GE

/-- Python `dict` of string options, as an ordered association list. -/
abbrev Dict := List (String × String)

/-- Python `d.get(k)`: the value at the first (unique) occurrence of `k`. -/
def dictGet (d : Dict) (k : String) : Option String :=
  match d with
  | [] => none
  | kv :: rest => if kv.1 == k then some kv.2 else dictGet rest k

/-- Python `d[k] = v`: replace the value in place if `k` is present,
otherwise append the binding at the end (insertion order semantics). -/
def dictSet (d : Dict) (k : String) (v : String) : Dict :=
  if d.any (fun kv => kv.1 == k) then
    d.map (fun kv => if kv.1 == k then (k, v) else kv)
  else
    d ++ [(k, v)]

/-- Python `d.update(e)`: key-by-key assignment of every binding of `e`. -/
def dictUpdate (d : Dict) (e : Dict) : Dict :=
  e.foldl (fun acc kv => dictSet acc kv.1 kv.2) d

/-- First-some choice, used to state key-by-key merge facts. -/
def optOrElse (a b : Option String) : Option String :=
  match a with
  | some v => some v
  | none => b

/-- Python truthiness of an optional string (`None` and `""` are falsy). -/
def optStrTruthy : Option String → Bool
  | some s => !(s == "")
  | none => false

/-- Python truthiness of an optional dict (`None` and `{}` are falsy). -/
def optDictTruthy : Option Dict → Bool
  | some d => !d.isEmpty
  | none => false

/-- Python `a or b` on optional strings (falsy left operand falls through). -/
def pyOrStr (a b : Option String) : Option String :=
  if optStrTruthy a then a else b

/-- Python `a or b` where the right operand is a (non-None) dict. -/
def pyOrDict (a : Option Dict) (b : Dict) : Dict :=
  if optDictTruthy a then a.getD [] else b

/-- Python truthiness of an optional int (`None` and `0` are falsy),
mirroring `if limit:` and `if partition_id:`. -/
def optNatTruthy : Option Nat → Bool
  | some n => !(n == 0)
  | none => false

/-- One asset configuration dictionary (class docstring, `__init__`).
Optional fields model presence of the corresponding dict key; the
defaults applied by each `.get` call appear at the use sites, exactly as
in the source. -/
structure AssetConfig where
  prefixStr : Option String
  delimiter : Option String
  regex_filter : Option String
  partition_regex : Option String
  match_group_id : Option Nat
  directory_assets : Option Bool
  max_keys : Option Nat
  reader_method : Option String
  reader_options : Option Dict
  deriving DecidableEq, Repr

/-- The connector-level configuration held by `S3GlobReaderDataConnector`
(`__init__`): `_bucket`, `_reader_method`, `_reader_options`, `_delimiter`,
`_max_keys`.  `reader_options` is mutable state in the source (it is
aliased into built batch kwargs and updated in place), so functions that
mutate it return an updated `Connector`. -/
structure Connector where
  bucket : String
  reader_method : Option String
  reader_options : Dict
  delimiter : String
  max_keys : Nat
  deriving DecidableEq, Repr

/-- The per-asset iterator dictionary (`self._iterators[name]`): it holds
at most the key `"continuation_token"`. -/
structure IterState where
  continuation_token : Option String
  deriving DecidableEq, Repr

/-- One entry of the `Contents` collection of a listing response. -/
structure S3Entry where
  key : String
  size : Nat
  deriving DecidableEq, Repr

/-- A `list_objects_v2` response, with the fields the source reads.
`commonPrefixes` holds the `Prefix` strings of the `CommonPrefixes`
items; optional fields model dict-key presence. -/
structure S3Response where
  contents : Option (List S3Entry)
  commonPrefixes : Option (List String)
  isTruncated : Bool
  nextContinuationToken : Option String
  deriving DecidableEq, Repr

/-- The query options passed to `list_objects_v2` (`_get_asset_options`). -/
structure Query where
  bucket : String
  delimiter : String
  prefixStr : Option String
  maxKeys : Nat
  continuationToken : Option String
  deriving DecidableEq, Repr

/-- The errors raised by the embedded code paths: `BatchKwargsError` and
`GreatExpectationsError` variants, each carrying the structured payload
the source attaches.  `keyErrorNextToken` models the `KeyError` a
truncated response without `NextContinuationToken` would raise, and
`outOfFuel` marks exhaustion of the recursion bound of the embedding. -/
inductive GEError where
  | unknownAsset (data_asset_name : String)
  | missingAssetName
  | noAssetConfig (data_asset_name : String)
  | noMatchingPartition (data_asset_name : String) (partition_id : String)
  | listingShapeDir (asset_configuration : AssetConfig)
      (contents : Option (List S3Entry))
  | listingShapeFile (asset_configuration : AssetConfig)
      (commonPrefixes : Option (List String))
  | keyErrorNextToken
  | outOfFuel
  deriving DecidableEq, Repr

/-- A Python `re.Match` object: `groups 0` is the whole match, `groups i`
for `1 ≤ i` the `i`-th capture group (`none` = non-participating group). -/
structure MatchObj where
  groups : List (Option String)
  deriving DecidableEq, Repr

/-- Python `m.group(i)`: `IndexError` (modelled as `.error ()`) when `i`
is out of range, otherwise the group value. -/
def MatchObj.group (m : MatchObj) (i : Nat) : Except Unit (Option String) :=
  if h : i < m.groups.length then .ok (m.groups.get ⟨i, h⟩) else .error ()

/-- The `re.match` oracle: pattern and subject to the optional match
object Python's `re` would produce.  The regex engine is an external
library, so it is a parameter of the embedding. -/
abbrev ReMatch := String → String → Option MatchObj

/-- Python `key.startswith(p)`, compared over code points; implemented on
the character lists so that the kernel can evaluate it on literals. -/
def pyStartsWith (key p : String) : Bool := List.isPrefixOf p.data key.data

/-- Embedding of `_partitioner(key, asset_config)` (lines 373-406).  Returns the
Python return value: `some s` for the string `s`, `none` when
`matches.group(...)` yields Python `None`. -/
def _partitioner (reMatchM : ReMatch) (now : String)
    (asset_config : AssetConfig) (key : String) : Option String :=
  match asset_config.partition_regex with
  | some pat =>
    let match_group_id := asset_config.match_group_id.getD 1
    match reMatchM pat key with
    | none => some (now ++ "__unmatched")
    | some mObj =>
      match mObj.group match_group_id with
      | .ok v => v
      | .error _ => some (now ++ "__no_match_group")
  | none =>
    let p := asset_config.prefixStr.getD ""
    let key := if pyStartsWith key p then key.drop p.length else key
    some key

/-- The `S3BatchKwargs` dictionary built by `_build_batch_kwargs_from_key`:
field `s3` is the object URI; `reader_method` / `limit` model presence of
the corresponding dict keys. -/
structure S3BatchKwargs where
  s3 : String
  reader_options : Dict
  reader_method : Option String
  limit : Option Nat
  deriving DecidableEq, Repr

/-- Embedding of `_build_batch_kwargs_from_key(key, asset_config, reader_method,
reader_options, limit)` (lines 236-263).  In the source
`batch_kwargs["reader_options"] = self.reader_options` aliases the
connector's dict and the subsequent `update` calls mutate it in place;
the returned `Connector` carries that mutation. -/
def _build_batch_kwargs_from_key (conn : Connector) (key : String)
    (asset_config : AssetConfig) (reader_method : Option String)
    (reader_options : Option Dict) (limit : Option Nat) :
    S3BatchKwargs × Connector :=
  let ro0 := conn.reader_options
  let ro1 :=
    if optDictTruthy asset_config.reader_options then
      dictUpdate ro0 (asset_config.reader_options.getD [])
    else ro0
  let ro2 :=
    match reader_options with
    | some o => dictUpdate ro1 o
    | none => ro1
  let rm0 := conn.reader_method
  let rm1 :=
    if optStrTruthy asset_config.reader_method then
      asset_config.reader_method
    else rm0
  let rm2 :=
    match reader_method with
    | some m => some m
    | none => rm1
  let lim :=
    match limit with
    | some n => if n == 0 then none else some n
    | none => none
  ({ s3 := "s3a://" ++ conn.bucket ++ "/" ++ key
     reader_options := ro2
     reader_method := rm2
     limit := lim },
   { conn with reader_options := ro2 })

/-- The object store: `boto3`'s `list_objects_v2` is external, so the
response for each set of query options is a parameter of the embedding. -/
abbrev Store := Query → S3Response

/-- The query options assembled at the top of `_get_asset_options`
(lines 266-277): `Bucket`, `Delimiter` (asset override or connector
default), `Prefix` (`.get("prefix", None)`), `MaxKeys` (asset override or
connector default) and, when the iterator dict holds one, the
continuation token. -/
def mkQuery (conn : Connector) (asset_config : AssetConfig)
    (st : IterState) : Query :=
  { bucket := conn.bucket
    delimiter := asset_config.delimiter.getD conn.delimiter
    prefixStr := asset_config.prefixStr
    maxKeys := asset_config.max_keys.getD conn.max_keys
    continuationToken := st.continuation_token }

/-- The shape handling of one response (lines 282-311): in directory mode
the `CommonPrefixes` items are required and their `Prefix` strings become
the keys; in file mode the `Contents` items are required and entries of
size 0 are dropped. -/
def rawKeys (asset_config : AssetConfig) (r : S3Response) :
    Except GEError (List String) :=
  if asset_config.directory_assets.getD false then
    match r.commonPrefixes with
    | none => .error (.listingShapeDir asset_config r.contents)
    | some ps => .ok ps
  else
    match r.contents with
    | none => .error (.listingShapeFile asset_config r.commonPrefixes)
    | some es =>
      .ok ((es.filter (fun item => decide (0 < item.size))).map
        (fun item => item.key))

/-- The regex filter of lines 313-320: keep the keys on which
`re.match(asset_config.get("regex_filter", ".*"), key)` is not `None`. -/
def filteredKeys (reMatchM : ReMatch) (asset_config : AssetConfig)
    (r : S3Response) : Except GEError (List String) :=
  match rawKeys asset_config r with
  | .error e => .error e
  | .ok keys =>
    .ok (keys.filter
      (fun k => (reMatchM (asset_config.regex_filter.getD ".*") k).isSome))

/-- One listing step of `_get_asset_options`: fetch a page, derive its
surviving keys, and update the iterator state as lines 324-331 do — the
token is stored when the response is truncated (a truncated response
without `NextContinuationToken` would raise `KeyError`) and absent
otherwise (`del` of the token, or it was never set). -/
def listStep (reMatchM : ReMatch) (store : Store) (conn : Connector)
    (asset_config : AssetConfig) (st : IterState) :
    Except GEError (List String × S3Response × IterState) :=
  let r := store (mkQuery conn asset_config st)
  match filteredKeys reMatchM asset_config r with
  | .error e => .error e
  | .ok keys =>
    if r.isTruncated then
      match r.nextContinuationToken with
      | none => .error .keyErrorNextToken
      | some t => .ok (keys, r, ⟨some t⟩)
    else .ok (keys, r, ⟨none⟩)

/-- Embedding of `_get_asset_options(asset_config, iterator_dict)` (lines 265-331),
fully drained: the keys of the first page followed by, while the store
reports truncation, the keys of recursive passes resumed from the stored
continuation token.  `fuel` bounds the recursion depth of the embedding
(the Python recursion is unbounded); it is always instantiated at or
above the page count. -/
def _get_asset_options (reMatchM : ReMatch) (store : Store)
    (conn : Connector) (asset_config : AssetConfig) :
    Nat → IterState → Except GEError (List String × IterState)
  | 0, _ => .error .outOfFuel
  | fuel + 1, st =>
    match listStep reMatchM store conn asset_config st with
    | .error e => .error e
    | .ok (keys, r, st') =>
      if r.isTruncated then
        match _get_asset_options reMatchM store conn asset_config fuel st' with
        | .error e => .error e
        | .ok (rest, st'') => .ok (keys ++ rest, st'')
      else .ok (keys, st')

/-- Embedding of `_build_asset_iterator(asset_config, iterator_dict, reader_method,
reader_options, limit)` (lines 333-348), drained to a list: every key of
the listing pass is turned into batch kwargs.  Note that the source
passes the literal `None` as `reader_method` to
`_build_batch_kwargs_from_key` (line 345) even though it received a
`reader_method` argument.  The connector mutation performed by each
build is threaded through. -/
def _build_asset_iterator (reMatchM : ReMatch) (store : Store)
    (conn : Connector) (asset_config : AssetConfig) (st : IterState)
    (reader_method : Option String) (reader_options : Option Dict)
    (limit : Option Nat) (fuel : Nat) :
    Except GEError (List S3BatchKwargs × Connector × IterState) :=
  match _get_asset_options reMatchM store conn asset_config fuel st with
  | .error e => .error e
  | .ok (keys, st') =>
    let (ds, conn') := keys.foldl
      (fun (acc : List S3BatchKwargs × Connector) key =>
        let (d, c') := _build_batch_kwargs_from_key acc.2 key asset_config
          none reader_options limit
        (acc.1 ++ [d], c'))
      ([], conn)
    .ok (ds, conn', st')

/-- Association-list lookup for `self._assets` / `self._iterators`. -/
def lookupA {α : Type} (k : String) : List (String × α) → Option α
  | [] => none
  | kv :: rest => if kv.1 == k then some kv.2 else lookupA k rest

/-- Association-list assignment for `self._iterators[name] = ...`. -/
def setA {α : Type} (l : List (String × α)) (k : String) (v : α) :
    List (String × α) :=
  if l.any (fun kv => kv.1 == k) then
    l.map (fun kv => if kv.1 == k then (k, v) else kv)
  else
    l ++ [(k, v)]

/-- Embedding of `_get_iterator(data_asset_name, reader_method, reader_options, limit)`
(lines 134-169): unknown asset names raise `BatchKwargsError`, otherwise
the asset iterator is built over the (possibly fresh) per-asset iterator
dict. -/
def _get_iterator (reMatchM : ReMatch) (store : Store) (conn : Connector)
    (assets : List (String × AssetConfig))
    (iterators : List (String × IterState)) (data_asset_name : String)
    (reader_method : Option String) (reader_options : Option Dict)
    (limit : Option Nat) (fuel : Nat) :
    Except GEError (List S3BatchKwargs × Connector × List (String × IterState)) :=
  match lookupA data_asset_name assets with
  | none => .error (.unknownAsset data_asset_name)
  | some asset_config =>
    let st := (lookupA data_asset_name iterators).getD ⟨none⟩
    match _build_asset_iterator reMatchM store conn asset_config st
        reader_method reader_options limit fuel with
    | .error e => .error e
    | .ok (ds, conn', st') => .ok (ds, conn', setA iterators data_asset_name st')

/-- The `batch_parameters` dictionary received by `_build_batch_kwargs`;
optional fields model presence of the corresponding keys. -/
structure BatchParameters where
  data_asset_name : Option String
  partition_id : Option String
  reader_method : Option String
  reader_options : Option Dict
  limit : Option Nat
  deriving DecidableEq, Repr

/-- Modelled from the spec: the execution engine's
`process_batch_definition` lives outside this source file (out-of-scope
collaborator); its call sites here immediately call `.get("limit")` on
its result, so it is modelled as returning a mapping — never Python
`None` — of which only the `limit` entry is read back. -/
structure EngineKwargs where
  limit : Option Nat
  deriving DecidableEq, Repr

/-- Modelled from the spec: the engine normalization function itself is a
parameter of the embedding. -/
abbrev Engine := Option String → Dict → Option Nat → EngineKwargs

/-- The value of the local variable `batch_kwargs` in
`_build_batch_kwargs`: first the engine-processed mapping, then possibly
a mapping built from a key. -/
inductive BK where
  | engine (e : EngineKwargs)
  | fromKey (k : S3BatchKwargs)
  deriving DecidableEq, Repr

/-- Python `batch_kwargs.get("limit")` on the current value of the variable. -/
def bkLimit : Option BK → Option Nat
  | some (.engine e) => e.limit
  | some (.fromKey k) => k.limit
  | none => none

/-- The result of `_build_batch_kwargs`: either a batch-kwargs value, or
delegation to the base class `yield_batch_kwargs` (external) when no
partition id was given, recorded with the arguments passed to it. -/
inductive BuildResult where
  | kwargs (bk : BK)
  | yielded (data_asset_name : String) (bp : BatchParameters) (e : EngineKwargs)
  deriving DecidableEq, Repr

/-- One iteration of the scan loop of lines 205-219: when the key's
partition equals the requested id, rebuild `batch_kwargs` from the key
(no `reader_method` argument is passed, the call-level `reader_options`
are, and `limit` is read from the current `batch_kwargs`); otherwise the
accumulator is unchanged. -/
def scanStep (reMatchM : ReMatch) (now : String)
    (asset_config : AssetConfig) (call_reader_options : Option Dict)
    (partition_id : String) (acc : Option BK × Connector) (key : String) :
    Option BK × Connector :=
  if _partitioner reMatchM now asset_config key = some partition_id then
    let (k, conn') := _build_batch_kwargs_from_key acc.2 key asset_config
      none call_reader_options (bkLimit acc.1)
    (some (.fromKey k), conn')
  else acc

/-- Embedding of `_build_batch_kwargs(batch_parameters)` (lines 177-234): pop the
asset name (missing → `BatchKwargsError`), pop the partition id, let the
engine process the reader settings (the Python `or` falls back to the
connector values on falsy arguments), then — when a partition id is
given — drain the asset listing, scanning every key and keeping the
batch kwargs of the last key whose partition matches; the `is None`
guard of line 221 is modelled on the actual variable.  Without a
partition id the request is delegated to `yield_batch_kwargs`. -/
def _build_batch_kwargs (engine : Engine) (reMatchM : ReMatch)
    (store : Store) (now : String) (conn : Connector)
    (assets : List (String × AssetConfig))
    (iterators : List (String × IterState)) (fuel : Nat)
    (bp : BatchParameters) :
    Except GEError (BuildResult × Connector × List (String × IterState)) :=
  match bp.data_asset_name with
  | none => .error .missingAssetName
  | some data_asset_name =>
    let e := engine (pyOrStr bp.reader_method conn.reader_method)
      (pyOrDict bp.reader_options conn.reader_options) bp.limit
    let bk : Option BK := some (.engine e)
    if optStrTruthy bp.partition_id then
      let partition_id := bp.partition_id.getD ""
      match lookupA data_asset_name assets with
      | none => .error (.noAssetConfig data_asset_name)
      | some asset_config =>
        let st := (lookupA data_asset_name iterators).getD ⟨none⟩
        match _get_asset_options reMatchM store conn asset_config fuel st with
        | .error err => .error err
        | .ok (keys, st') =>
          let (bk', conn') := keys.foldl
            (scanStep reMatchM now asset_config bp.reader_options partition_id)
            (bk, conn)
          match bk' with
          | none => .error (.noMatchingPartition data_asset_name partition_id)
          | some k =>
            .ok (.kwargs k, conn', setA iterators data_asset_name st')
    else
      .ok (.yielded data_asset_name bp e, conn, iterators)

/-- An asset configuration dictionary with no keys set. -/
def noneCfg : AssetConfig := ⟨none, none, none, none, none, none, none, none, none⟩

/-- A `re.match` oracle for the default pattern `".*"`, which matches
every string (whole match, no capture groups). -/
def matchAllRe : ReMatch := fun _ s => some ⟨[some s]⟩

/-- A concrete `re.match` oracle behaving like the pattern
`(dddd)` of the spec's examples: on `pat1` it matches
`"logs/2020.csv"` with one capture group `"2020"` and fails elsewhere. -/
def reW : ReMatch := fun pat key =>
  if pat == "pat1" then
    if key == "logs/2020.csv" then some ⟨[some "2020", some "2020"]⟩ else none
  else if pat == ".*" then some ⟨[some key]⟩
  else none

/-- The surviving keys of one file-mode page: size filter, key
projection, then regex filter, in the source's order. -/
def survivingKeys (reMatchM : ReMatch) (asset_config : AssetConfig)
    (r : S3Response) : List String :=
  (((r.contents.getD []).filter (fun item => decide (0 < item.size))).map
      (fun item => item.key)).filter
    (fun k => (reMatchM (asset_config.regex_filter.getD ".*") k).isSome)

/-- A finite pass of listing responses: from state `st` the store answers
the query with the head response; every response but the last is
truncated and carries the continuation token under which the store
serves the next response; the last is untruncated. -/
inductive Chain (store : Store) (conn : Connector) (asset_config : AssetConfig) :
    IterState → List S3Response → Prop where
  | last (st : IterState) (r : S3Response) :
      store (mkQuery conn asset_config st) = r → r.isTruncated = false →
      Chain store conn asset_config st [r]
  | step (st : IterState) (r : S3Response) (t : String) (rs : List S3Response) :
      store (mkQuery conn asset_config st) = r → r.isTruncated = true →
      r.nextContinuationToken = some t →
      Chain store conn asset_config ⟨some t⟩ rs →
      Chain store conn asset_config st (r :: rs)

/-- A connector fixture. -/
def connW : Connector := ⟨"bkt", none, [], "/", 1000⟩

/-- First page of the spec's pagination scenario: truncated with token
`"t1"`, keys `a` and `b`. -/
def page1W : S3Response :=
  ⟨some [⟨"a", 1⟩, ⟨"b", 2⟩], none, true, some "t1"⟩

/-- Second page of the spec's pagination scenario: untruncated, key `c`. -/
def page2W : S3Response := ⟨some [⟨"c", 3⟩], none, false, none⟩

/-- A store serving `page1W` initially and `page2W` under token `"t1"`. -/
def storeW : Store := fun q =>
  match q.continuationToken with
  | some t => if t == "t1" then page2W else page1W
  | none => page1W

/-- C1: with `partition_regex` configured, `_partitioner` returns the
captured text of group `match_group_id` verbatim on a match with that
group in range, a timestamp suffixed `"__unmatched"` when the regex does
not match, and a timestamp suffixed `"__no_match_group"` when the group
id is out of range; without `partition_regex` it strips the configured
prefix from the front of the key when the key starts with it and returns
the remainder (otherwise the key itself). -/
theorem c1_partitioner_cases (reMatchM : ReMatch) (now : String)
    (cfg : AssetConfig) (key : String) :
    (∀ pat, cfg.partition_regex = some pat → reMatchM pat key = none →
      _partitioner reMatchM now cfg key = some (now ++ "__unmatched")) ∧
    (∀ pat m s, cfg.partition_regex = some pat → reMatchM pat key = some m →
      m.group (cfg.match_group_id.getD 1) = .ok (some s) →
      _partitioner reMatchM now cfg key = some s) ∧
    (∀ pat m, cfg.partition_regex = some pat → reMatchM pat key = some m →
      m.groups.length ≤ cfg.match_group_id.getD 1 →
      _partitioner reMatchM now cfg key = some (now ++ "__no_match_group")) ∧
    (cfg.partition_regex = none →
      _partitioner reMatchM now cfg key =
        some (if pyStartsWith key (cfg.prefixStr.getD "")
          then key.drop (cfg.prefixStr.getD "").length else key)) := by
  refine ⟨?_, ?_, ?_, ?_⟩
  · intro pat hpat hm
    simp [_partitioner, hpat, hm]
  · intro pat m s hpat hm hg
    simp [_partitioner, hpat, hm, hg]
  · intro pat m hpat hm hlen
    have hg : m.group (cfg.match_group_id.getD 1) = .error () := by
      simp [MatchObj.group, Nat.not_lt.mpr hlen]
    simp [_partitioner, hpat, hm, hg]
  · intro hpat
    simp [_partitioner, hpat]

/-- Witness for C1 at the spec's concrete examples. -/
theorem c1_partitioner_cases_witness :
    _partitioner reW "TS" { noneCfg with partition_regex := some "pat1" }
      "logs/2020.csv" = some "2020" ∧
    _partitioner reW "TS" { noneCfg with partition_regex := some "pat1" }
      "logs/abcd.csv" = some ("TS" ++ "__unmatched") ∧
    _partitioner reW "TS"
      { noneCfg with partition_regex := some "pat1", match_group_id := some 5 }
      "logs/2020.csv" = some ("TS" ++ "__no_match_group") ∧
    _partitioner reW "TS" { noneCfg with prefixStr := some "logs/" }
      "logs/2020.csv" = some "2020.csv" := by
  refine ⟨?_, ?_, ?_, ?_⟩
  · exact (c1_partitioner_cases reW "TS"
      { noneCfg with partition_regex := some "pat1" } "logs/2020.csv").2.1
      "pat1" ⟨[some "2020", some "2020"]⟩ "2020" rfl rfl rfl
  · exact (c1_partitioner_cases reW "TS"
      { noneCfg with partition_regex := some "pat1" } "logs/abcd.csv").1
      "pat1" rfl rfl
  · exact (c1_partitioner_cases reW "TS"
      { noneCfg with partition_regex := some "pat1", match_group_id := some 5 }
      "logs/2020.csv").2.2.1 "pat1" ⟨[some "2020", some "2020"]⟩ rfl rfl
      (by decide)
  · have h := (c1_partitioner_cases reW "TS"
      { noneCfg with prefixStr := some "logs/" } "logs/2020.csv").2.2.2 rfl
    rw [h]
    rfl

/-- Helper: the state produced by one listing step, by cases on the
truncation flag of the response. -/
lemma listStep_state {reMatchM : ReMatch} {store : Store} {conn : Connector}
    {cfg : AssetConfig} {st : IterState} {keys : List String}
    {r : S3Response} {st' : IterState}
    (h : listStep reMatchM store conn cfg st = .ok (keys, r, st')) :
    st'.continuation_token.isSome = r.isTruncated ∧
    (r.isTruncated = true →
      st'.continuation_token = r.nextContinuationToken) ∧
    (r.isTruncated = false → st'.continuation_token = none) := by
  rcases hfk : filteredKeys reMatchM cfg (store (mkQuery conn cfg st))
    with e | keys0
  · simp [listStep, hfk] at h
  · cases htr : (store (mkQuery conn cfg st)).isTruncated with
    | false =>
      simp only [listStep, hfk, htr, Bool.false_eq_true, if_false,
        Except.ok.injEq, Prod.mk.injEq] at h
      obtain ⟨-, hr, hst⟩ := h
      subst hr
      subst hst
      refine ⟨by simp [htr], fun ht => ?_, fun _ => rfl⟩
      rw [htr] at ht
      simp at ht
    | true =>
      cases htok : (store (mkQuery conn cfg st)).nextContinuationToken with
      | none => simp [listStep, hfk, htr, htok] at h
      | some t =>
        simp only [listStep, hfk, htr, htok, if_true, Except.ok.injEq,
          Prod.mk.injEq] at h
        obtain ⟨-, hr, hst⟩ := h
        subst hr
        subst hst
        refine ⟨by simp [htr], fun _ => by simp [htok], fun hf => ?_⟩
        rw [htr] at hf
        simp at hf

/-- Helper: a fully drained listing pass leaves no continuation token. -/
lemma get_asset_options_final_state {reMatchM : ReMatch} {store : Store}
    {conn : Connector} {cfg : AssetConfig} (fuel : Nat) :
    ∀ (st : IterState) (out : List String × IterState),
      _get_asset_options reMatchM store conn cfg fuel st = .ok out →
        out.2.continuation_token = none := by
  induction fuel with
  | zero =>
    intro st out h
    simp [_get_asset_options] at h
  | succ n ih =>
    intro st out h
    rw [_get_asset_options] at h
    split at h
    · simp at h
    · rename_i keys r st' hstep
      split at h
      · split at h
        · simp at h
        · rename_i rest st'' hrec
          simp only [Except.ok.injEq] at h
          subst h
          exact ih st' (rest, st'') hrec
      · simp only [Except.ok.injEq] at h
        subst h
        rename_i htr
        have hf : r.isTruncated = false := by
          rw [Bool.not_eq_true] at htr
          exact htr
        exact (listStep_state hstep).2.2 hf

/-- C3: after any listing step, the iterator state holds a continuation
token iff the response was truncated — in which case it equals the
returned next token — and it is cleared when the response was not
truncated; moreover a fully drained listing pass always ends with no
token stored. -/
theorem c3_token_iff_truncated :
    (∀ (reMatchM : ReMatch) (store : Store) (conn : Connector)
        (cfg : AssetConfig) (st : IterState) (keys : List String)
        (r : S3Response) (st' : IterState),
      listStep reMatchM store conn cfg st = .ok (keys, r, st') →
        st'.continuation_token.isSome = r.isTruncated ∧
        (r.isTruncated = true →
          st'.continuation_token = r.nextContinuationToken) ∧
        (r.isTruncated = false → st'.continuation_token = none)) ∧
    (∀ (reMatchM : ReMatch) (store : Store) (conn : Connector)
        (cfg : AssetConfig) (fuel : Nat) (st : IterState)
        (out : List String × IterState),
      _get_asset_options reMatchM store conn cfg fuel st = .ok out →
        out.2.continuation_token = none) :=
  ⟨fun _ _ _ _ _ _ _ _ h => listStep_state h,
   fun _ _ _ _ fuel st out h => get_asset_options_final_state fuel st out h⟩

/-- Witness for C3: on the two-page fixture, the first step stores token
`"t1"` of the truncated first page, and the drained pass ends with no
token. -/
theorem c3_token_iff_truncated_witness :
    listStep matchAllRe storeW connW noneCfg ⟨none⟩ =
      .ok (["a", "b"], page1W, ⟨some "t1"⟩) ∧
    (⟨some "t1"⟩ : IterState).continuation_token.isSome = page1W.isTruncated ∧
    (⟨some "t1"⟩ : IterState).continuation_token =
      page1W.nextContinuationToken ∧
    _get_asset_options matchAllRe storeW connW noneCfg 2 ⟨none⟩ =
      .ok (["a", "b", "c"], ⟨none⟩) ∧
    (⟨none⟩ : IterState).continuation_token = none := by
  have hstep : listStep matchAllRe storeW connW noneCfg ⟨none⟩ =
      .ok (["a", "b"], page1W, ⟨some "t1"⟩) := rfl
  have hrun : _get_asset_options matchAllRe storeW connW noneCfg 2 ⟨none⟩ =
      .ok (["a", "b", "c"], ⟨none⟩) := rfl
  have h1 := (c3_token_iff_truncated.1 matchAllRe storeW connW noneCfg
    ⟨none⟩ ["a", "b"] page1W ⟨some "t1"⟩ hstep)
  have h2 := c3_token_iff_truncated.2 matchAllRe storeW connW noneCfg 2
    ⟨none⟩ (["a", "b", "c"], ⟨none⟩) hrun
  exact ⟨hstep, h1.1, h1.2.1 rfl, hrun, h2⟩

/-- Helper: in file mode with a `Contents` collection present, the
filtered keys of a response are its surviving keys. -/
lemma filteredKeys_file (reMatchM : ReMatch) {cfg : AssetConfig}
    {r : S3Response} {es : List S3Entry}
    (hdir : cfg.directory_assets.getD false = false)
    (hc : r.contents = some es) :
    filteredKeys reMatchM cfg r = .ok (survivingKeys reMatchM cfg r) := by
  simp [filteredKeys, rawKeys, hdir, hc, survivingKeys]

/-- Helper: a successful listing step returns exactly the filtered keys
of the response the store served for the state's query. -/
lemma listStep_ok_keys {reMatchM : ReMatch} {store : Store}
    {conn : Connector} {cfg : AssetConfig} {st : IterState}
    {keys0 : List String} {r : S3Response} {st0 : IterState}
    (hstep : listStep reMatchM store conn cfg st = .ok (keys0, r, st0)) :
    filteredKeys reMatchM cfg (store (mkQuery conn cfg st)) = .ok keys0 ∧
    store (mkQuery conn cfg st) = r := by
  rcases hfk : filteredKeys reMatchM cfg (store (mkQuery conn cfg st))
    with e | ks
  · simp [listStep, hfk] at hstep
  · cases htr : (store (mkQuery conn cfg st)).isTruncated with
    | false =>
      simp only [listStep, hfk, htr, Bool.false_eq_true, if_false,
        Except.ok.injEq, Prod.mk.injEq] at hstep
      obtain ⟨hk, hr, -⟩ := hstep
      exact ⟨by rw [hk], hr⟩
    | true =>
      cases htok : (store (mkQuery conn cfg st)).nextContinuationToken with
      | none => simp [listStep, hfk, htr, htok] at hstep
      | some t =>
        simp only [listStep, hfk, htr, htok, if_true, Except.ok.injEq,
          Prod.mk.injEq] at hstep
        obtain ⟨hk, hr, -⟩ := hstep
        exact ⟨by rw [hk], hr⟩

/-- Helper: every key a file-mode listing step yields stems from a
`Contents` entry of positive size of the served response. -/
lemma listStep_key_source {reMatchM : ReMatch} {store : Store}
    {conn : Connector} {cfg : AssetConfig} {st : IterState}
    {keys0 : List String} {r : S3Response} {st0 : IterState}
    (hdir : cfg.directory_assets.getD false = false)
    (hstep : listStep reMatchM store conn cfg st = .ok (keys0, r, st0)) :
    ∀ k ∈ keys0, ∃ e,
      e ∈ (store (mkQuery conn cfg st)).contents.getD [] ∧
      e.key = k ∧ 0 < e.size := by
  obtain ⟨hfk, -⟩ := listStep_ok_keys hstep
  rcases hc : (store (mkQuery conn cfg st)).contents with - | es
  · simp [filteredKeys, rawKeys, hdir, hc] at hfk
  · simp only [filteredKeys, rawKeys, hdir, hc, Bool.false_eq_true,
      if_false, Except.ok.injEq] at hfk
    intro k hk
    rw [← hfk] at hk
    simp only [List.mem_filter, List.mem_map] at hk
    obtain ⟨⟨e, he, hkey⟩, -⟩ := hk
    exact ⟨e, by simp [hc, he.1], hkey, of_decide_eq_true he.2⟩

/-- Helper: every key a file-mode drained listing pass yields stems from
a positive-size `Contents` entry of one of the served responses. -/
lemma get_asset_options_key_source {reMatchM : ReMatch} {store : Store}
    {conn : Connector} {cfg : AssetConfig}
    (hdir : cfg.directory_assets.getD false = false) :
    ∀ (fuel : Nat) (st : IterState) (keys : List String) (st' : IterState),
      _get_asset_options reMatchM store conn cfg fuel st = .ok (keys, st') →
      ∀ k ∈ keys, ∃ stq e,
        e ∈ (store (mkQuery conn cfg stq)).contents.getD [] ∧
        e.key = k ∧ 0 < e.size := by
  intro fuel
  induction fuel with
  | zero =>
    intro st keys st' h
    simp [_get_asset_options] at h
  | succ n ih =>
    intro st keys st' h
    rw [_get_asset_options] at h
    rcases hstep : listStep reMatchM store conn cfg st with e | ⟨keys0, r, st0⟩
    · rw [hstep] at h
      simp at h
    · rw [hstep] at h
      have hsrc := listStep_key_source hdir hstep
      cases htr : r.isTruncated with
      | false =>
        simp only [htr, Bool.false_eq_true, if_false, Except.ok.injEq,
          Prod.mk.injEq] at h
        obtain ⟨hk, -⟩ := h
        intro k hkmem
        rw [← hk] at hkmem
        obtain ⟨e, hmem, hkey, hsize⟩ := hsrc k hkmem
        exact ⟨st, e, hmem, hkey, hsize⟩
      | true =>
        simp only [htr, if_true] at h
        rcases hrec : _get_asset_options reMatchM store conn cfg n st0
          with e | ⟨rest, st1⟩
        · rw [hrec] at h
          simp at h
        · rw [hrec] at h
          simp only [Except.ok.injEq, Prod.mk.injEq] at h
          obtain ⟨hk, -⟩ := h
          intro k hkmem
          rw [← hk] at hkmem
          rcases List.mem_append.mp hkmem with hl | hr
          · obtain ⟨e, hmem, hkey, hsize⟩ := hsrc k hl
            exact ⟨st, e, hmem, hkey, hsize⟩
          · exact ih st0 rest st1 hrec k hr

/-- Helper: every batch kwargs produced by the iterator's build fold is
either already in the accumulator or was built from one of the keys, and
the bucket of the threaded connector never changes. -/
lemma build_fold_s3 {cfg : AssetConfig} {ro : Option Dict} {lim : Option Nat} :
    ∀ (keys : List String) (acc : List S3BatchKwargs × Connector),
      ∀ d ∈ (keys.foldl
        (fun (acc : List S3BatchKwargs × Connector) key =>
          let (d, c') := _build_batch_kwargs_from_key acc.2 key cfg
            none ro lim
          (acc.1 ++ [d], c'))
        acc).1,
        d ∈ acc.1 ∨ ∃ k ∈ keys, d.s3 = "s3a://" ++ acc.2.bucket ++ "/" ++ k := by
  intro keys
  induction keys with
  | nil =>
    intro acc d hd
    exact .inl hd
  | cons key rest ih =>
    intro acc d hd
    simp only [List.foldl_cons] at hd
    rcases ih _ d hd with hacc | ⟨k, hk, hs3⟩
    · rcases List.mem_append.mp hacc with h1 | h2
      · exact .inl h1
      · refine .inr ⟨key, by simp, ?_⟩
        rw [List.mem_singleton] at h2
        rw [h2]
        rfl
    · exact .inr ⟨k, by simp [hk], hs3⟩

/-- C7: in directory mode a response without `CommonPrefixes` makes the
listing step fail with the shape error carrying the asset configuration,
and a response with common prefixes yields exactly those prefix strings
(they all pass the regex filter); in file mode a response without
`Contents` fails with the shape error carrying the asset
configuration. -/
theorem c7_listing_shape :
    (∀ (reMatchM : ReMatch) (store : Store) (conn : Connector)
        (cfg : AssetConfig) (st : IterState),
      cfg.directory_assets.getD false = true →
      (store (mkQuery conn cfg st)).commonPrefixes = none →
      listStep reMatchM store conn cfg st =
        .error (.listingShapeDir cfg (store (mkQuery conn cfg st)).contents)) ∧
    (∀ (reMatchM : ReMatch) (cfg : AssetConfig) (r : S3Response),
      cfg.directory_assets.getD false = true →
      r.commonPrefixes = some ["x/", "y/"] →
      (∀ k ∈ (["x/", "y/"] : List String),
        (reMatchM (cfg.regex_filter.getD ".*") k).isSome = true) →
      filteredKeys reMatchM cfg r = .ok ["x/", "y/"]) ∧
    (∀ (reMatchM : ReMatch) (store : Store) (conn : Connector)
        (cfg : AssetConfig) (st : IterState),
      cfg.directory_assets.getD false = false →
      (store (mkQuery conn cfg st)).contents = none →
      listStep reMatchM store conn cfg st =
        .error (.listingShapeFile cfg
          (store (mkQuery conn cfg st)).commonPrefixes)) := by
  refine ⟨?_, ?_, ?_⟩
  · intro reMatchM store conn cfg st hdir hcp
    simp [listStep, filteredKeys, rawKeys, hdir, hcp]
  · intro reMatchM cfg r hdir hcp hre
    have hx := hre "x/" (by simp)
    have hy := hre "y/" (by simp)
    simp [filteredKeys, rawKeys, hdir, hcp, hx, hy]
  · intro reMatchM store conn cfg st hdir hc
    simp [listStep, filteredKeys, rawKeys, hdir, hc]

/-- Witness for C7 at the spec's concrete shapes. -/
theorem c7_listing_shape_witness :
    listStep matchAllRe (fun _ => ⟨some [⟨"a", 1⟩], none, false, none⟩) connW
      { noneCfg with directory_assets := some true } ⟨none⟩ =
      .error (.listingShapeDir { noneCfg with directory_assets := some true }
        (some [⟨"a", 1⟩])) ∧
    filteredKeys matchAllRe { noneCfg with directory_assets := some true }
      ⟨none, some ["x/", "y/"], false, none⟩ = .ok ["x/", "y/"] ∧
    listStep matchAllRe (fun _ => ⟨none, some ["x/"], false, none⟩) connW
      noneCfg ⟨none⟩ =
      .error (.listingShapeFile noneCfg (some ["x/"])) := by
  refine ⟨?_, ?_, ?_⟩
  · exact c7_listing_shape.1 matchAllRe
      (fun _ => ⟨some [⟨"a", 1⟩], none, false, none⟩) connW
      { noneCfg with directory_assets := some true } ⟨none⟩ rfl rfl
  · exact c7_listing_shape.2.1 matchAllRe
      { noneCfg with directory_assets := some true }
      ⟨none, some ["x/", "y/"], false, none⟩ rfl rfl
      (by intro k hk; rfl)
  · exact c7_listing_shape.2.2 matchAllRe
      (fun _ => ⟨none, some ["x/"], false, none⟩) connW noneCfg ⟨none⟩ rfl rfl

/-- C8: in file mode, zero-size entries are dropped before the regex
filter — the raw keys of a page are exactly the keys of its
positive-size entries — and every batch kwargs the asset iterator builds
stems from a positive-size entry of one of the served responses, so no
batch kwargs is ever built from a zero-size key. -/
theorem c8_zero_size_excluded :
    (∀ (cfg : AssetConfig) (r : S3Response) (es : List S3Entry),
      cfg.directory_assets.getD false = false →
      r.contents = some es →
      rawKeys cfg r =
        .ok ((es.filter (fun item => decide (0 < item.size))).map
          (fun item => item.key))) ∧
    (∀ (reMatchM : ReMatch) (store : Store) (conn : Connector)
        (cfg : AssetConfig) (st : IterState) (rm : Option String)
        (ro : Option Dict) (lim : Option Nat) (fuel : Nat)
        (ds : List S3BatchKwargs) (conn' : Connector) (st' : IterState)
        (d : S3BatchKwargs),
      cfg.directory_assets.getD false = false →
      _build_asset_iterator reMatchM store conn cfg st rm ro lim fuel =
        .ok (ds, conn', st') →
      d ∈ ds →
      ∃ stq e, e ∈ (store (mkQuery conn cfg stq)).contents.getD [] ∧
        0 < e.size ∧ d.s3 = "s3a://" ++ conn.bucket ++ "/" ++ e.key) := by
  constructor
  · intro cfg r es hdir hc
    simp [rawKeys, hdir, hc]
  · intro reMatchM store conn cfg st rm ro lim fuel ds conn' st' d hdir hrun hd
    unfold _build_asset_iterator at hrun
    rcases hkeys : _get_asset_options reMatchM store conn cfg fuel st
      with e | ⟨keys, st0⟩
    · rw [hkeys] at hrun
      simp at hrun
    · rw [hkeys] at hrun
      simp only [Except.ok.injEq, Prod.mk.injEq] at hrun
      obtain ⟨hds, -⟩ := hrun
      subst hds
      rcases build_fold_s3 keys ([], conn) d hd with hnil | ⟨k, hk, hs3⟩
      · simp at hnil
      · obtain ⟨stq, e, he, hkey, hsize⟩ :=
          get_asset_options_key_source hdir fuel st keys st0 hkeys k hk
        exact ⟨stq, e, he, hsize, by rw [hs3, hkey]⟩

/-- Store fixture for C8: one untruncated page with a zero-size entry
`a` and a positive-size entry `b`. -/
def storeC8 : Store := fun _ => ⟨some [⟨"a", 0⟩, ⟨"b", 10⟩], none, false, none⟩

/-- Witness for C8: from contents `a` (size 0), `b` (size 10) only `b`
survives, and the single batch kwargs built stems from a positive-size
entry. -/
theorem c8_zero_size_excluded_witness :
    _get_asset_options matchAllRe storeC8 connW noneCfg 1 ⟨none⟩ =
      .ok (["b"], ⟨none⟩) ∧
    rawKeys noneCfg ⟨some [⟨"a", 0⟩, ⟨"b", 10⟩], none, false, none⟩ =
      .ok ["b"] ∧
    (∃ stq e, e ∈ (storeC8 (mkQuery connW noneCfg stq)).contents.getD [] ∧
      0 < e.size ∧
      (⟨"s3a://bkt/b", [], none, none⟩ : S3BatchKwargs).s3 =
        "s3a://" ++ connW.bucket ++ "/" ++ e.key) := by
  refine ⟨rfl, ?_, ?_⟩
  · have h := c8_zero_size_excluded.1 noneCfg
      ⟨some [⟨"a", 0⟩, ⟨"b", 10⟩], none, false, none⟩ [⟨"a", 0⟩, ⟨"b", 10⟩]
      rfl rfl
    rw [h]
    rfl
  · exact c8_zero_size_excluded.2 matchAllRe storeC8 connW noneCfg ⟨none⟩
      none none none 1 [⟨"s3a://bkt/b", [], none, none⟩]
      ⟨"bkt", none, [], "/", 1000⟩ ⟨none⟩ ⟨"s3a://bkt/b", [], none, none⟩
      rfl rfl (by simp)

/-- C2: over any finite pass of listing responses in which every page
but the last is truncated (the store serving each follow-up page under
the continuation token returned by its predecessor), fully draining
`_get_asset_options` with fuel equal to the page count succeeds, yields
the surviving keys of all pages concatenated in store-return order, and
leaves the per-asset state without a continuation token. -/
theorem c2_pagination (reMatchM : ReMatch) (store : Store)
    (conn : Connector) (cfg : AssetConfig) (st : IterState)
    (pages : List S3Response) (hch : Chain store conn cfg st pages)
    (hdir : cfg.directory_assets.getD false = false)
    (hshape : ∀ r ∈ pages, r.contents.isSome = true) :
    _get_asset_options reMatchM store conn cfg pages.length st =
      .ok ((pages.map (survivingKeys reMatchM cfg)).flatten, ⟨none⟩) := by
  induction hch with
  | last st r hst hfalse =>
    obtain ⟨es, hc⟩ := Option.isSome_iff_exists.mp (hshape r (by simp))
    have hfk := filteredKeys_file reMatchM hdir hc
    have hstep : listStep reMatchM store conn cfg st =
        .ok (survivingKeys reMatchM cfg r, r, ⟨none⟩) := by
      simp [listStep, hst, hfk, hfalse]
    simp only [List.length_cons, List.length_nil]
    rw [_get_asset_options, hstep]
    simp [hfalse]
  | step st r t rs hst htrue htok hch ih =>
    obtain ⟨es, hc⟩ := Option.isSome_iff_exists.mp (hshape r (by simp))
    have hfk := filteredKeys_file reMatchM hdir hc
    have hstep : listStep reMatchM store conn cfg st =
        .ok (survivingKeys reMatchM cfg r, r, ⟨some t⟩) := by
      simp [listStep, hst, hfk, htrue, htok]
    have hrec := ih (fun r' hr' => hshape r' (List.mem_cons_of_mem _ hr'))
    simp only [List.length_cons]
    rw [_get_asset_options, hstep]
    simp [htrue, hrec]

/-- Witness for C2 on the spec's two-page scenario: page one is
truncated with token `"t1"` and keys `a`, `b`; page two, served under
token `"t1"`, is untruncated with key `c`; draining yields exactly
`a, b, c` in order and clears the continuation state. -/
theorem c2_pagination_witness :
    Chain storeW connW noneCfg ⟨none⟩ [page1W, page2W] ∧
    _get_asset_options matchAllRe storeW connW noneCfg 2 ⟨none⟩ =
      .ok (["a", "b", "c"], ⟨none⟩) := by
  have hch : Chain storeW connW noneCfg ⟨none⟩ [page1W, page2W] :=
    Chain.step ⟨none⟩ page1W "t1" [page2W] rfl rfl rfl
      (Chain.last ⟨some "t1"⟩ page2W rfl rfl)
  exact ⟨hch, c2_pagination matchAllRe storeW connW noneCfg ⟨none⟩
    [page1W, page2W] hch rfl (by decide)⟩

/-- Helper: replacing the binding of `k` in place does not change the
lookup of any other key. -/
lemma dictGet_replace_ne (k v k' : String) (hk : ¬ k' = k) :
    ∀ d : Dict,
      dictGet (d.map (fun kv => if kv.1 == k then (k, v) else kv)) k' =
        dictGet d k' := by
  intro d
  induction d with
  | nil => rfl
  | cons hd tl ih =>
    simp only [beq_iff_eq] at ih
    by_cases hh : hd.1 = k
    · have h1 : ¬ k = k' := fun h => hk h.symm
      have h2 : ¬ hd.1 = k' := by rw [hh]; exact h1
      simp [dictGet, beq_iff_eq, hh, h1, h2, ih]
    · by_cases hh' : hd.1 = k' <;> simp [dictGet, beq_iff_eq, hh, hh', hk, ih]

/-- Helper: replacing the binding of `k` in place yields `v` at `k`,
provided some binding of `k` was present. -/
lemma dictGet_replace_eq (k v : String) :
    ∀ d : Dict, d.any (fun kv => kv.1 == k) = true →
      dictGet (d.map (fun kv => if kv.1 == k then (k, v) else kv)) k =
        some v := by
  intro d
  induction d with
  | nil => intro h; simp at h
  | cons hd tl ih =>
    intro hany
    simp only [beq_iff_eq] at ih
    by_cases hh : hd.1 = k
    · simp [dictGet, beq_iff_eq, hh]
    · simp only [List.any_cons, Bool.or_eq_true] at hany
      rcases hany with h1 | h2
      · exact absurd (by simpa using h1) hh
      · simp [dictGet, beq_iff_eq, hh, ih h2]

/-- Helper: appending a fresh binding of `k` yields `v` at `k` when no
binding of `k` was present. -/
lemma dictGet_append_eq (k v : String) :
    ∀ d : Dict, d.any (fun kv => kv.1 == k) = false →
      dictGet (d ++ [(k, v)]) k = some v := by
  intro d
  induction d with
  | nil => intro h; simp [dictGet]
  | cons hd tl ih =>
    intro hany
    simp only [List.any_cons, Bool.or_eq_false_iff] at hany
    have hh : ¬ hd.1 = k := by
      intro h
      have := hany.1
      rw [h] at this
      simp at this
    simp [dictGet, hh, ih hany.2]

/-- Helper: appending a binding of `k` does not change the lookup of any
other key. -/
lemma dictGet_append_ne (k v k' : String) (hk : ¬ k' = k) :
    ∀ d : Dict, dictGet (d ++ [(k, v)]) k' = dictGet d k' := by
  intro d
  have h1 : ¬ k = k' := fun h => hk h.symm
  induction d with
  | nil => simp [dictGet, beq_iff_eq, h1]
  | cons hd tl ih =>
    by_cases hh : hd.1 = k' <;> simp [dictGet, beq_iff_eq, hh, ih]

/-- Helper: Python dict assignment semantics of `dictSet` at lookup. -/
lemma dictGet_dictSet (d : Dict) (k v k' : String) :
    dictGet (dictSet d k v) k' = if k' = k then some v else dictGet d k' := by
  unfold dictSet
  by_cases hany : d.any (fun kv => kv.1 == k) = true
  · rw [if_pos hany]
    by_cases hk : k' = k
    · rw [if_pos hk, hk]
      exact dictGet_replace_eq k v d hany
    · rw [if_neg hk]
      exact dictGet_replace_ne k v k' hk d
  · rw [if_neg hany]
    rw [Bool.not_eq_true] at hany
    by_cases hk : k' = k
    · rw [if_pos hk, hk]
      exact dictGet_append_eq k v d hany
    · rw [if_neg hk]
      exact dictGet_append_ne k v k' hk d

/-- Helper: lookup misses a dict none of whose keys is `k`. -/
lemma dictGet_not_mem (e : Dict) (k : String)
    (h : ∀ kv ∈ e, kv.1 ≠ k) : dictGet e k = none := by
  induction e with
  | nil => rfl
  | cons hd tl ih =>
    have hh : ¬ hd.1 = k := h hd (by simp)
    simp [dictGet, hh, ih (fun kv hkv => h kv (by simp [hkv]))]

/-- Helper: Python `dict.update` at lookup — the updating layer wins
key-by-key, the base layer answers the remaining keys. -/
lemma dictGet_dictUpdate (d e : Dict) (k : String)
    (hnd : (e.map Prod.fst).Nodup) :
    dictGet (dictUpdate d e) k = optOrElse (dictGet e k) (dictGet d k) := by
  induction e generalizing d with
  | nil => simp [dictUpdate, dictGet, optOrElse]
  | cons hd tl ih =>
    simp only [List.map_cons, List.nodup_cons] at hnd
    have step : dictUpdate d (hd :: tl) =
        dictUpdate (dictSet d hd.1 hd.2) tl := rfl
    rw [step, ih _ hnd.2]
    by_cases hk : k = hd.1
    · subst hk
      have htl : dictGet tl hd.1 = none := by
        refine dictGet_not_mem tl hd.1 (fun kv hkv h => ?_)
        exact hnd.1 (h ▸ List.mem_map_of_mem Prod.fst hkv)
      rw [dictGet_dictSet]
      simp [optOrElse, htl, dictGet, beq_iff_eq]
    · have hh : ¬ hd.1 = k := fun h => hk h.symm
      rw [dictGet_dictSet]
      simp [optOrElse, hk, dictGet, beq_iff_eq, hh]

/-- The asset-level reader-options layer actually merged by the builder:
the asset's `reader_options` when truthy, nothing otherwise. -/
def assetROLayer (cfg : AssetConfig) : Dict :=
  if optDictTruthy cfg.reader_options then cfg.reader_options.getD [] else []

/-- C4: the reader options of every built batch kwargs are the shallow
merge of the connector-level options, then the asset-level layer, then
the call-level overrides — structurally, and key-by-key with each later
layer replacing keys present in the previous ones. -/
theorem c4_reader_options_merge :
    (∀ (conn : Connector) (key : String) (cfg : AssetConfig)
        (rm : Option String) (call : Option Dict) (lim : Option Nat),
      ((_build_batch_kwargs_from_key conn key cfg rm call lim).1).reader_options =
        dictUpdate (dictUpdate conn.reader_options (assetROLayer cfg))
          (call.getD [])) ∧
    (∀ (conn : Connector) (key : String) (cfg : AssetConfig)
        (rm : Option String) (call : Option Dict) (lim : Option Nat)
        (k : String),
      ((assetROLayer cfg).map Prod.fst).Nodup →
      (((call.getD []) : Dict).map Prod.fst).Nodup →
      dictGet
        ((_build_batch_kwargs_from_key conn key cfg rm call lim).1).reader_options
        k =
      optOrElse (dictGet (call.getD []) k)
        (optOrElse (dictGet (assetROLayer cfg) k)
          (dictGet conn.reader_options k))) := by
  have hstruct : ∀ (conn : Connector) (key : String) (cfg : AssetConfig)
      (rm : Option String) (call : Option Dict) (lim : Option Nat),
      ((_build_batch_kwargs_from_key conn key cfg rm call lim).1).reader_options =
        dictUpdate (dictUpdate conn.reader_options (assetROLayer cfg))
          (call.getD []) := by
    intro conn key cfg rm call lim
    cases call with
    | none =>
      by_cases ht : optDictTruthy cfg.reader_options = true <;>
        simp [_build_batch_kwargs_from_key, assetROLayer, ht, dictUpdate]
    | some o =>
      by_cases ht : optDictTruthy cfg.reader_options = true <;>
        simp [_build_batch_kwargs_from_key, assetROLayer, ht, dictUpdate]
  refine ⟨hstruct, ?_⟩
  intro conn key cfg rm call lim k hnd1 hnd2
  rw [hstruct, dictGet_dictUpdate _ _ _ hnd2, dictGet_dictUpdate _ _ _ hnd1]

/-- Witness for C4 on the spec's precedence example: connector
`sep = ","`, asset `sep = "~"`, empty call override — the built kwargs
carry `sep = "~"`. -/
theorem c4_reader_options_merge_witness :
    dictGet
      ((_build_batch_kwargs_from_key ⟨"b", none, [("sep", ",")], "/", 1000⟩
        "key1" { noneCfg with reader_options := some [("sep", "~")] }
        none (some []) none).1).reader_options "sep" = some "~" ∧
    ((_build_batch_kwargs_from_key ⟨"b", none, [("sep", ",")], "/", 1000⟩
      "key1" { noneCfg with reader_options := some [("sep", "~")] }
      none (some []) none).1).reader_options =
      dictUpdate (dictUpdate [("sep", ",")]
        (assetROLayer { noneCfg with reader_options := some [("sep", "~")] }))
        [] := by
  constructor
  · have h := c4_reader_options_merge.2 ⟨"b", none, [("sep", ",")], "/", 1000⟩
      "key1" { noneCfg with reader_options := some [("sep", "~")] }
      none (some []) none "sep" (by decide) (by decide)
    rw [h]
    rfl
  · exact c4_reader_options_merge.1 ⟨"b", none, [("sep", ",")], "/", 1000⟩
      "key1" { noneCfg with reader_options := some [("sep", "~")] }
      none (some []) none

/-- Connector fixture for C10, with connector-level `sep = ","`. -/
def connC10 : Connector := ⟨"b", none, [("sep", ",")], "/", 1000⟩

/-- Asset fixture for C10, with asset-level `sep = "~"`. -/
def cfgC10 : AssetConfig := { noneCfg with reader_options := some [("sep", "~")] }

/-- C10 (refuted — code bug): building batch kwargs for a key does NOT
leave the connector-level reader options unchanged: the source aliases
`self.reader_options` into the batch kwargs and `dict.update` mutates it
in place, so after one build with an asset-level `sep = "~"` the
connector's stored options have become `sep = "~"`. -/
theorem c10_connector_reader_options_mutated :
    ((_build_batch_kwargs_from_key connC10 "a" cfgC10 none none none).2).reader_options
      = [("sep", "~")] ∧
    connC10.reader_options = [("sep", ",")] ∧
    ((_build_batch_kwargs_from_key connC10 "a" cfgC10 none none none).2).reader_options
      ≠ connC10.reader_options := by
  exact ⟨rfl, rfl, by decide⟩

/-- An engine fixture returning the empty normalized mapping. -/
def engine0 : Engine := fun _ _ _ => ⟨none⟩

/-- Store fixture for C5/C9: one untruncated page with the single key
`k1`. -/
def storeK1 : Store := fun _ => ⟨some [⟨"k1", 5⟩], none, false, none⟩

/-- Batch parameters fixture for C5: asset `a`, partition id `nope`
which no listed key resolves to. -/
def bpC5 : BatchParameters := ⟨some "a", some "nope", none, none, none⟩

/-- C5 (code bug): a batch-build request with an explicit partition id
that no key resolves to does NOT fail — because `batch_kwargs` was
pre-initialized with the engine-processed mapping (which the same code
path treats as a dict), the `is None` guard of line 221 can never fire,
and the engine mapping is returned instead of the no-matching-partition
error. -/
theorem c5_no_match_returns_engine_kwargs :
    _build_batch_kwargs engine0 matchAllRe storeK1 "TS" connW
      [("a", noneCfg)] [] 1 bpC5 =
      .ok (.kwargs (.engine ⟨none⟩), connW, [("a", ⟨none⟩)]) := rfl

/-- Helper: the scan loop leaves the accumulator unchanged over keys
none of which resolves to the requested partition id. -/
lemma scanStep_no_match {reMatchM : ReMatch} {now : String}
    {cfg : AssetConfig} {ro : Option Dict} {pid : String} :
    ∀ (l : List String) (acc : Option BK × Connector),
      (∀ k' ∈ l, _partitioner reMatchM now cfg k' ≠ some pid) →
      l.foldl (scanStep reMatchM now cfg ro pid) acc = acc := by
  intro l
  induction l with
  | nil => intro acc _; rfl
  | cons hd tl ih =>
    intro acc h
    simp only [List.foldl_cons]
    rw [show scanStep reMatchM now cfg ro pid acc hd = acc from by
      simp [scanStep, h hd (by simp)]]
    exact ih acc (fun k' hk' => h k' (by simp [hk']))

/-- C6: when the drained listing is `l₁ ++ k :: l₂` with `k` resolving
to the requested partition id and no later key resolving to it, the
partition-id path of `_build_batch_kwargs` scans the entire listing and
returns the batch kwargs built from `k` — the last matching key — under
the connector state accumulated over `l₁`. -/
theorem c6_last_match_wins (engine : Engine) (reMatchM : ReMatch)
    (store : Store) (now : String) (conn : Connector)
    (assets : List (String × AssetConfig))
    (iterators : List (String × IterState)) (fuel : Nat)
    (bp : BatchParameters) (name pid : String) (cfg : AssetConfig)
    (l₁ l₂ : List String) (k : String) (st' : IterState)
    (bk₁ : Option BK) (c₁ : Connector) (d : S3BatchKwargs) (c₂ : Connector)
    (hname : bp.data_asset_name = some name)
    (hpid : bp.partition_id = some pid) (hpne : pid ≠ "")
    (hasset : lookupA name assets = some cfg)
    (hkeys : _get_asset_options reMatchM store conn cfg fuel
      ((lookupA name iterators).getD ⟨none⟩) = .ok (l₁ ++ k :: l₂, st'))
    (hmatch : _partitioner reMatchM now cfg k = some pid)
    (hl₂ : ∀ k' ∈ l₂, _partitioner reMatchM now cfg k' ≠ some pid)
    (hacc : l₁.foldl (scanStep reMatchM now cfg bp.reader_options pid)
      (some (.engine (engine (pyOrStr bp.reader_method conn.reader_method)
        (pyOrDict bp.reader_options conn.reader_options) bp.limit)), conn) =
      (bk₁, c₁))
    (hbuild : _build_batch_kwargs_from_key c₁ k cfg none bp.reader_options
      (bkLimit bk₁) = (d, c₂)) :
    _build_batch_kwargs engine reMatchM store now conn assets iterators
      fuel bp = .ok (.kwargs (.fromKey d), c₂, setA iterators name st') := by
  have htruthy : optStrTruthy bp.partition_id = true := by
    rw [hpid]
    simp [optStrTruthy, hpne]
  have hgetd : bp.partition_id.getD "" = pid := by rw [hpid]; rfl
  simp only [_build_batch_kwargs, hname, htruthy, hgetd, hasset, hkeys,
    if_true]
  rw [List.foldl_append]
  rw [hacc]
  simp only [List.foldl_cons]
  rw [show scanStep reMatchM now cfg bp.reader_options pid (bk₁, c₁) k =
      (some (.fromKey d), c₂) from by simp [scanStep, hmatch, hbuild]]
  rw [scanStep_no_match l₂ _ hl₂]

/-- A `re.match` oracle under which both `k1` and `k2` capture the same
partition group `dup` for pattern `pdup`, and `mid` does not match. -/
def reC6 : ReMatch := fun pat key =>
  if pat == "pdup" then
    if key == "k1" || key == "k2" then some ⟨[some key, some "dup"]⟩
    else none
  else if pat == ".*" then some ⟨[some key]⟩
  else none

/-- Asset fixture for C6 using the `pdup` partition regex. -/
def cfgC6 : AssetConfig := { noneCfg with partition_regex := some "pdup" }

/-- Store fixture for C6: one untruncated page with keys `k1`, `mid`,
`k2` — `k1` and `k2` both resolve to partition `dup`. -/
def storeC6 : Store :=
  fun _ => ⟨some [⟨"k1", 1⟩, ⟨"mid", 1⟩, ⟨"k2", 2⟩], none, false, none⟩

/-- Batch parameters fixture for C6: request partition `dup` of asset
`a`. -/
def bpC6 : BatchParameters := ⟨some "a", some "dup", none, none, none⟩

/-- Witness for C6: with two keys resolving to `dup`, the returned
batch kwargs are built from `k2`, the last matching key in scan order. -/
theorem c6_last_match_wins_witness :
    _build_batch_kwargs engine0 reC6 storeC6 "TS" connW [("a", cfgC6)] []
      1 bpC6 =
      .ok (.kwargs (.fromKey ⟨"s3a://bkt/k2", [], none, none⟩), connW,
        [("a", ⟨none⟩)]) :=
  c6_last_match_wins engine0 reC6 storeC6 "TS" connW [("a", cfgC6)] [] 1
    bpC6 "a" "dup" cfgC6 ["k1", "mid"] [] "k2" ⟨none⟩
    (some (.fromKey ⟨"s3a://bkt/k1", [], none, none⟩)) connW
    ⟨"s3a://bkt/k2", [], none, none⟩ connW
    rfl rfl (by decide) rfl rfl rfl (by simp) rfl rfl

/-- Connector fixture for C9, with connector-level reader method
`csv`. -/
def connC9 : Connector := ⟨"bkt", some "csv", [], "/", 1000⟩

/-- C9 counterexample: with a non-empty call-level reader_method
override (`parquet`), no asset-level reader method and connector-level
`csv`, the descriptor yielded by the lazy sequence carries `csv` — the
call-level override is not applied (line 345 passes the literal `None`
to the builder), so the claimed precedence is false. -/
theorem c9_counterexample :
    _build_asset_iterator matchAllRe storeK1 connC9 noneCfg ⟨none⟩
      (some "parquet") none none 1 =
      .ok ([⟨"s3a://bkt/k1", [], some "csv", none⟩], connC9, ⟨none⟩) ∧
    (some "csv" : Option String) ≠ some "parquet" := ⟨rfl, by decide⟩

/-- The reader method every built descriptor actually receives: the
asset-level reader method when truthy, else the connector-level one. -/
def rmResolve (conn : Connector) (cfg : AssetConfig) : Option String :=
  if optStrTruthy cfg.reader_method then cfg.reader_method
  else conn.reader_method

/-- Helper: the iterator's build fold preserves the connector reader
method and stamps `rmResolve` on every descriptor it appends. -/
lemma build_fold_rm {cfg : AssetConfig} {ro : Option Dict}
    {lim : Option Nat} {rm0 : Option String} :
    ∀ (keys : List String) (acc : List S3BatchKwargs × Connector),
      acc.2.reader_method = rm0 →
      (∀ d ∈ acc.1, d.reader_method =
        (if optStrTruthy cfg.reader_method then cfg.reader_method
         else rm0)) →
      (keys.foldl
        (fun (acc : List S3BatchKwargs × Connector) key =>
          let (d, c') := _build_batch_kwargs_from_key acc.2 key cfg
            none ro lim
          (acc.1 ++ [d], c'))
        acc).2.reader_method = rm0 ∧
      ∀ d ∈ (keys.foldl
        (fun (acc : List S3BatchKwargs × Connector) key =>
          let (d, c') := _build_batch_kwargs_from_key acc.2 key cfg
            none ro lim
          (acc.1 ++ [d], c'))
        acc).1, d.reader_method =
          (if optStrTruthy cfg.reader_method then cfg.reader_method
           else rm0) := by
  intro keys
  induction keys with
  | nil =>
    intro acc h1 h2
    exact ⟨h1, h2⟩
  | cons key rest ih =>
    intro acc h1 h2
    simp only [List.foldl_cons]
    refine ih _ h1 ?_
    intro d hd
    rcases List.mem_append.mp hd with hin | hnew
    · exact h2 d hin
    · rw [List.mem_singleton] at hnew
      subst hnew
      show (if optStrTruthy cfg.reader_method then cfg.reader_method
        else acc.2.reader_method) = _
      rw [h1]

/-- Helper: the partition-path scan fold preserves the connector reader
method and stamps `rmResolve` on any key-built batch kwargs it holds. -/
lemma scan_fold_rm (reMatchM : ReMatch) (now : String) (cfg : AssetConfig)
    (ro : Option Dict) (pid : String) (rm0 : Option String) :
    ∀ (keys : List String) (acc : Option BK × Connector),
      acc.2.reader_method = rm0 →
      (∀ d, acc.1 = some (.fromKey d) → d.reader_method =
        (if optStrTruthy cfg.reader_method then cfg.reader_method
         else rm0)) →
      (keys.foldl (scanStep reMatchM now cfg ro pid) acc).2.reader_method
        = rm0 ∧
      ∀ d, (keys.foldl (scanStep reMatchM now cfg ro pid) acc).1 =
          some (.fromKey d) →
        d.reader_method =
          (if optStrTruthy cfg.reader_method then cfg.reader_method
           else rm0) := by
  intro keys
  induction keys with
  | nil =>
    intro acc h1 h2
    exact ⟨h1, h2⟩
  | cons key rest ih =>
    intro acc h1 h2
    simp only [List.foldl_cons]
    by_cases hm : _partitioner reMatchM now cfg key = some pid
    · rw [show scanStep reMatchM now cfg ro pid acc key =
          (some (.fromKey (_build_batch_kwargs_from_key acc.2 key cfg
            none ro (bkLimit acc.1)).1),
           (_build_batch_kwargs_from_key acc.2 key cfg
            none ro (bkLimit acc.1)).2) from by simp [scanStep, hm]]
      refine ih _ h1 ?_
      intro d hd
      rw [Option.some_inj] at hd
      cases hd
      show (if optStrTruthy cfg.reader_method then cfg.reader_method
        else acc.2.reader_method) = _
      rw [h1]
    · rw [show scanStep reMatchM now cfg ro pid acc key = acc from by
        simp [scanStep, hm]]
      exact ih acc h1 h2

/-- C9 (amended): every batch descriptor actually produced — by the
builder itself when called as the source calls it (with `None` for
`reader_method`), by the lazy asset-iterator sequence, and by the
partition-id path — carries the asset-level reader method when truthy,
else the connector-level one; the call-level override never reaches a
built descriptor. -/
theorem c9_reader_method_precedence :
    (∀ (conn : Connector) (key : String) (cfg : AssetConfig)
        (ro : Option Dict) (lim : Option Nat),
      ((_build_batch_kwargs_from_key conn key cfg none ro lim).1).reader_method
        = rmResolve conn cfg) ∧
    (∀ (reMatchM : ReMatch) (store : Store) (conn : Connector)
        (cfg : AssetConfig) (st : IterState) (rm : Option String)
        (ro : Option Dict) (lim : Option Nat) (fuel : Nat)
        (ds : List S3BatchKwargs) (conn' : Connector) (st' : IterState)
        (d : S3BatchKwargs),
      _build_asset_iterator reMatchM store conn cfg st rm ro lim fuel =
        .ok (ds, conn', st') →
      d ∈ ds → d.reader_method = rmResolve conn cfg) ∧
    (∀ (engine : Engine) (reMatchM : ReMatch) (store : Store)
        (now : String) (conn : Connector)
        (assets : List (String × AssetConfig))
        (iterators : List (String × IterState)) (fuel : Nat)
        (bp : BatchParameters) (res : BuildResult) (conn' : Connector)
        (iter' : List (String × IterState)) (name : String)
        (cfg : AssetConfig) (d : S3BatchKwargs),
      _build_batch_kwargs engine reMatchM store now conn assets iterators
        fuel bp = .ok (res, conn', iter') →
      bp.data_asset_name = some name →
      lookupA name assets = some cfg →
      res = .kwargs (.fromKey d) →
      d.reader_method = rmResolve conn cfg) := by
  refine ⟨fun conn key cfg ro lim => rfl, ?_, ?_⟩
  · intro reMatchM store conn cfg st rm ro lim fuel ds conn' st' d hrun hd
    unfold _build_asset_iterator at hrun
    rcases hkeys : _get_asset_options reMatchM store conn cfg fuel st
      with e | ⟨keys, st0⟩
    · rw [hkeys] at hrun
      simp at hrun
    · rw [hkeys] at hrun
      simp only [Except.ok.injEq, Prod.mk.injEq] at hrun
      obtain ⟨hds, -⟩ := hrun
      subst hds
      exact (build_fold_rm keys ([], conn) rfl (by simp)).2 d hd
  · intro engine reMatchM store now conn assets iterators fuel bp res
      conn' iter' name cfg d hrun hname hasset hres
    subst hres
    simp only [_build_batch_kwargs, hname, hasset] at hrun
    by_cases htruthy : optStrTruthy bp.partition_id = true
    · rw [if_pos htruthy] at hrun
      rcases hkeys : _get_asset_options reMatchM store conn cfg fuel
          ((lookupA name iterators).getD ⟨none⟩) with e | ⟨keys, st0⟩
      · simp only [hkeys] at hrun
        simp at hrun
      · simp only [hkeys] at hrun
        rcases hacc : keys.foldl
            (scanStep reMatchM now cfg bp.reader_options
              (bp.partition_id.getD ""))
            (some (.engine (engine
              (pyOrStr bp.reader_method conn.reader_method)
              (pyOrDict bp.reader_options conn.reader_options) bp.limit)),
             conn) with ⟨bk', c'⟩
        simp only [hacc] at hrun
        cases bk' with
        | none => simp at hrun
        | some k =>
          simp only [Except.ok.injEq, Prod.mk.injEq,
            BuildResult.kwargs.injEq] at hrun
          obtain ⟨hk, -⟩ := hrun
          have hinv := (scan_fold_rm reMatchM now cfg bp.reader_options
            (bp.partition_id.getD "") conn.reader_method keys
            (some (.engine (engine
              (pyOrStr bp.reader_method conn.reader_method)
              (pyOrDict bp.reader_options conn.reader_options) bp.limit)),
             conn) rfl (by intro d hd; simp at hd)).2
          rw [hacc] at hinv
          have := hinv d (by rw [hk])
          rw [this]
          rfl
    · rw [if_neg htruthy] at hrun
      simp at hrun

/-- Witness for C9's amended precedence on concrete runs of all three
paths: connector `csv`, no asset-level method — every produced
descriptor carries `csv`. -/
theorem c9_reader_method_precedence_witness :
    ((_build_batch_kwargs_from_key connC9 "k1" noneCfg none none
      none).1).reader_method = rmResolve connC9 noneCfg ∧
    (⟨"s3a://bkt/k1", [], some "csv", none⟩ : S3BatchKwargs).reader_method
      = rmResolve connC9 noneCfg ∧
    rmResolve connC9 noneCfg = some "csv" := by
  refine ⟨c9_reader_method_precedence.1 connC9 "k1" noneCfg none none, ?_, rfl⟩
  exact c9_reader_method_precedence.2.1 matchAllRe storeK1 connC9 noneCfg
    ⟨none⟩ (some "parquet") none none 1
    [⟨"s3a://bkt/k1", [], some "csv", none⟩] connC9 ⟨none⟩
    ⟨"s3a://bkt/k1", [], some "csv", none⟩ rfl (by simp)

end GE
